import Mathlib

/-!
Verification of the SEO-Website-Audit repository's scoring and
recommendation-aggregation core, shallowly embedded in Lean 4.

Machine reals of the Python source are modelled by rationals; Python's
banker's rounding (round-half-to-even) is modelled by pyRound below.
Python dicts holding findings are modelled by association lists
(List (String × _)); a dict field that may be absent is an Option.
-/

/-- Python's built-in round (round half to even) on a rational. -/
def pyRound (q : ℚ) : ℤ :=
  let n : ℤ := ⌊q⌋
  let r : ℚ := q - n
  if r < 1/2 then n
  else if 1/2 < r then n + 1
  else if n % 2 = 0 then n else n + 1

theorem pyRound_le_add_half (q : ℚ) : (pyRound q : ℚ) ≤ q + 1/2 := by
  have h0 : ((⌊q⌋ : ℤ) : ℚ) ≤ q := Int.floor_le q
  have h1 : q < (⌊q⌋ : ℤ) + 1 := Int.lt_floor_add_one q
  unfold pyRound
  dsimp only
  split_ifs with ha hb hc <;> push_cast <;> linarith

theorem sub_half_le_pyRound (q : ℚ) : q - 1/2 ≤ (pyRound q : ℚ) := by
  have h0 : ((⌊q⌋ : ℤ) : ℚ) ≤ q := Int.floor_le q
  have h1 : q < (⌊q⌋ : ℤ) + 1 := Int.lt_floor_add_one q
  unfold pyRound
  dsimp only
  split_ifs with ha hb hc <;> push_cast <;> linarith

theorem pyRound_nonneg {q : ℚ} (h : 0 ≤ q) : 0 ≤ pyRound q := by
  have h2 := sub_half_le_pyRound q
  have h3 : (-1 : ℚ) < (pyRound q : ℚ) := by linarith
  have h4 : (-1 : ℤ) < pyRound q := by exact_mod_cast h3
  omega

theorem pyRound_le_hundred {q : ℚ} (h : q ≤ 100) : pyRound q ≤ 100 := by
  have h2 := pyRound_le_add_half q
  have h3 : (pyRound q : ℚ) < 101 := by linarith
  have h4 : pyRound q < (101 : ℤ) := by exact_mod_cast h3
  omega

theorem pyRound_lt_of_add_two_le {q r : ℚ} (h : q + 2 ≤ r) :
    pyRound q < pyRound r := by
  have h1 := pyRound_le_add_half q
  have h2 := sub_half_le_pyRound r
  have h3 : (pyRound q : ℚ) < (pyRound r : ℚ) := by linarith
  exact_mod_cast h3

/-- A finding dict as the analyzers build them: the scoring and
recommendation code reads the keys "type", "title", "description",
any of which a raw dict may lack. -/
structure Item where
  type : Option String
  title : Option String
  description : Option String
deriving DecidableEq

/-- A finding's "type" (severity) is one of the three recognised values. -/
def validType (i : Item) : Prop :=
  i.type = some "success" ∨ i.type = some "warning" ∨ i.type = some "error"

instance (i : Item) : Decidable (validType i) := by
  unfold validType; infer_instance

/-- The type_counts loop of SEOAnalyzer._calculate_score (the same loop
appears verbatim in SecurityAnalyzer._calculate_score): items without a
"type" key are skipped; an unrecognised type raises KeyError, modelled
as Except.error. Returns (success, warning, error) counts. -/
def typeCounts : List Item → Except Unit (ℕ × ℕ × ℕ)
  | [] => Except.ok (0, 0, 0)
  | i :: is =>
    match typeCounts is with
    | Except.error e => Except.error e
    | Except.ok (s, w, e) =>
      match i.type with
      | none => Except.ok (s, w, e)
      | some t =>
        if t = "success" then Except.ok (s + 1, w, e)
        else if t = "warning" then Except.ok (s, w + 1, e)
        else if t = "error" then Except.ok (s, w, e + 1)
        else Except.error ()

/-- The per-category score of one category's item list, as
_calculate_score computes it: 50 for an empty list, 50 when no item had
a countable type, otherwise (success*100 + warning*50) / counted total. -/
def categoryScore (items : List Item) : Except Unit ℚ :=
  if items.isEmpty then Except.ok (50 : ℚ)
  else
    match typeCounts items with
    | Except.error e => Except.error e
    | Except.ok (s, w, e) =>
      if s + w + e = 0 then Except.ok (50 : ℚ)
      else Except.ok ((s * 100 + w * 50 : ℚ) / (s + w + e))

/-- The category-loop of _calculate_score over the findings mapping. -/
def scoreCategories : List (String × List Item) → Except Unit (List (String × ℚ))
  | [] => Except.ok []
  | (c, items) :: rest =>
    match categoryScore items with
    | Except.error e => Except.error e
    | Except.ok v =>
      match scoreCategories rest with
      | Except.error e => Except.error e
      | Except.ok vs => Except.ok ((c, v) :: vs)

/-- _calculate_score, generic in the per-analyzer category weight table:
weighted average of category scores over the categories present, 50 when
the present categories' total weight is 0, rounded with Python round. -/
def calculateScoreWith (W : String → ℚ) (findings : List (String × List Item)) :
    Except Unit ℤ :=
  match scoreCategories findings with
  | Except.error e => Except.error e
  | Except.ok cs =>
    let totalWeight := (cs.map (fun p => W p.1)).sum
    if totalWeight = 0 then Except.ok 50
    else Except.ok (pyRound ((cs.map (fun p => W p.1 * p.2)).sum / totalWeight))

/-- SEOAnalyzer._calculate_score weight table. -/
def seoWeights : String → ℚ := fun c =>
  if c = "Meta Tags" then 1/5
  else if c = "Headings" then 3/20
  else if c = "Content" then 1/5
  else if c = "Links" then 3/20
  else if c = "Images" then 3/20
  else if c = "Technical" then 3/20
  else 0

/-- SEOAnalyzer._calculate_score. -/
def SEOAnalyzer.calculate_score : List (String × List Item) → Except Unit ℤ :=
  calculateScoreWith seoWeights

/-- SecurityAnalyzer._calculate_score weight table. -/
def securityWeights : String → ℚ := fun c =>
  if c = "HTTPS" then 2/5
  else if c = "Headers" then 3/10
  else if c = "Content" then 3/20
  else if c = "Configuration" then 3/20
  else 0

/-- SecurityAnalyzer._calculate_score (same algorithm, its own table). -/
def SecurityAnalyzer.calculate_score : List (String × List Item) → Except Unit ℤ :=
  calculateScoreWith securityWeights

/-- Number of items in a list carrying the given "type" value. -/
def countType (items : List Item) (t : String) : ℕ :=
  (items.filter (fun i => i.type = some t)).length

/-- Category score as the spec states it: 50 for an empty category,
otherwise (success_count*100 + warning_count*50) / total_count. -/
def specCatScore (items : List Item) : ℚ :=
  if items = [] then 50
  else (countType items "success" * 100 + countType items "warning" * 50 : ℚ) /
    items.length

/-- The category scorer as the spec describes it: per-category scores,
then round(weighted sum / total weight) with 50 when total weight is 0;
unknown categories get weight 0 through the table W. -/
def specScoreWith (W : String → ℚ) (findings : List (String × List Item)) : ℤ :=
  let cs := findings.map (fun p => (p.1, specCatScore p.2))
  let totalWeight := (cs.map (fun p => W p.1)).sum
  if totalWeight = 0 then 50
  else pyRound ((cs.map (fun p => W p.1 * p.2)).sum / totalWeight)

theorem countType_cons (i : Item) (is : List Item) (t : String) :
    countType (i :: is) t = countType is t + (if i.type = some t then 1 else 0) := by
  unfold countType
  by_cases h : i.type = some t <;> simp [List.filter_cons, h]

theorem countType_total_of_valid {items : List Item}
    (h : ∀ i ∈ items, validType i) :
    countType items "success" + countType items "warning" +
      countType items "error" = items.length := by
  induction items with
  | nil => simp [countType]
  | cons i is ih =>
    have hi := h i (by simp)
    have hrest : ∀ j ∈ is, validType j := fun j hj => h j (by simp [hj])
    rw [countType_cons, countType_cons, countType_cons]
    have hx := ih hrest
    rcases hi with h1 | h1 | h1 <;> simp [h1, List.length_cons] <;> omega

theorem typeCounts_eq_of_valid {items : List Item}
    (h : ∀ i ∈ items, validType i) :
    typeCounts items = Except.ok
      (countType items "success", countType items "warning",
       countType items "error") := by
  induction items with
  | nil => simp [typeCounts, countType]
  | cons i is ih =>
    have hi := h i (by simp)
    have hrest : ∀ j ∈ is, validType j := fun j hj => h j (by simp [hj])
    rw [countType_cons, countType_cons, countType_cons]
    rcases hi with h1 | h1 | h1 <;> simp [typeCounts, ih hrest, h1]

theorem countType_succ_warn_le (items : List Item) :
    countType items "success" + countType items "warning" ≤ items.length := by
  induction items with
  | nil => simp [countType]
  | cons i is ih =>
    rw [countType_cons, countType_cons]
    by_cases h1 : i.type = some "success"
    · have h2 : ¬ i.type = some "warning" := by simp [h1]
      simp [h1, h2, List.length_cons]; omega
    · by_cases h2 : i.type = some "warning" <;>
        simp [h1, h2, List.length_cons] <;> omega

theorem specCatScore_nonneg (items : List Item) : 0 ≤ specCatScore items := by
  unfold specCatScore
  split_ifs with h
  · norm_num
  · apply div_nonneg <;> positivity

theorem specCatScore_le_hundred (items : List Item) :
    specCatScore items ≤ 100 := by
  unfold specCatScore
  split_ifs with h
  · norm_num
  · have hlen : 0 < items.length := List.length_pos.mpr h
    have hcnt := countType_succ_warn_le items
    rw [div_le_iff₀ (by exact_mod_cast hlen)]
    have hc : (countType items "success" : ℚ) + countType items "warning" ≤
        items.length := by exact_mod_cast hcnt
    nlinarith [hc]

theorem categoryScore_eq_of_valid {items : List Item}
    (h : ∀ i ∈ items, validType i) :
    categoryScore items = Except.ok (specCatScore items) := by
  rcases items with _ | ⟨i, is⟩
  · simp [categoryScore, specCatScore]
  · have hne : ¬ (i :: is) = [] := by simp
    have htot := countType_total_of_valid h
    have hcne : countType (i :: is) "success" + countType (i :: is) "warning" +
        countType (i :: is) "error" ≠ 0 := by rw [htot]; simp
    have hq : ((countType (i :: is) "success" : ℚ) +
        (countType (i :: is) "warning" : ℚ) +
        (countType (i :: is) "error" : ℚ)) = ((i :: is).length : ℚ) := by
      exact_mod_cast htot
    unfold categoryScore specCatScore
    rw [typeCounts_eq_of_valid h]
    simp only [List.isEmpty_cons, Bool.false_eq_true, if_false, if_neg hne,
      if_neg hcne]
    rw [hq]

theorem scoreCategories_eq_of_valid {findings : List (String × List Item)}
    (h : ∀ p ∈ findings, ∀ i ∈ p.2, validType i) :
    scoreCategories findings =
      Except.ok (findings.map (fun p => (p.1, specCatScore p.2))) := by
  induction findings with
  | nil => simp [scoreCategories]
  | cons p rest ih =>
    obtain ⟨c, items⟩ := p
    have hhead : ∀ i ∈ items, validType i := h (c, items) (by simp)
    have hrest : ∀ q ∈ rest, ∀ i ∈ q.2, validType i :=
      fun q hm => h q (by simp [hm])
    simp [scoreCategories, categoryScore_eq_of_valid hhead, ih hrest]

theorem calculateScoreWith_eq_of_valid (W : String → ℚ)
    {findings : List (String × List Item)}
    (h : ∀ p ∈ findings, ∀ i ∈ p.2, validType i) :
    calculateScoreWith W findings = Except.ok (specScoreWith W findings) := by
  unfold calculateScoreWith specScoreWith
  rw [scoreCategories_eq_of_valid h]
  dsimp only
  split_ifs with h1 <;> rfl

theorem weight_list_sum_nonneg (W : String → ℚ) (hW : ∀ c, 0 ≤ W c)
    (cs : List (String × ℚ)) : 0 ≤ (cs.map (fun p => W p.1)).sum := by
  apply List.sum_nonneg
  intro x hx
  obtain ⟨p, _, rfl⟩ := List.mem_map.mp hx
  exact hW p.1

theorem weighted_sum_bounds (W : String → ℚ) (hW : ∀ c, 0 ≤ W c)
    (cs : List (String × ℚ)) (h : ∀ p ∈ cs, 0 ≤ p.2 ∧ p.2 ≤ 100) :
    0 ≤ (cs.map (fun p => W p.1 * p.2)).sum ∧
    (cs.map (fun p => W p.1 * p.2)).sum ≤ 100 * (cs.map (fun p => W p.1)).sum := by
  induction cs with
  | nil => simp
  | cons p rest ih =>
    have hp := h p (by simp)
    have hrest := ih (fun q hq => h q (by simp [hq]))
    have hw := hW p.1
    have h1 : 0 ≤ W p.1 * p.2 := mul_nonneg hw hp.1
    have h2 : W p.1 * p.2 ≤ W p.1 * 100 := mul_le_mul_of_nonneg_left hp.2 hw
    simp only [List.map_cons, List.sum_cons]
    constructor
    · linarith [hrest.1]
    · linarith [hrest.2]

theorem specScoreWith_bounds (W : String → ℚ) (hW : ∀ c, 0 ≤ W c)
    (findings : List (String × List Item)) :
    0 ≤ specScoreWith W findings ∧ specScoreWith W findings ≤ 100 := by
  unfold specScoreWith
  dsimp only
  split_ifs with h
  · omega
  · set cs := findings.map (fun p => (p.1, specCatScore p.2)) with hcs
    have hmem : ∀ p ∈ cs, 0 ≤ p.2 ∧ p.2 ≤ 100 := by
      intro p hp
      rw [hcs] at hp
      obtain ⟨q, _, rfl⟩ := List.mem_map.mp hp
      exact ⟨specCatScore_nonneg q.2, specCatScore_le_hundred q.2⟩
    have hT0 : 0 ≤ (cs.map (fun p => W p.1)).sum := weight_list_sum_nonneg W hW cs
    have hT : 0 < (cs.map (fun p => W p.1)).sum := lt_of_le_of_ne hT0 (Ne.symm h)
    have hS := weighted_sum_bounds W hW cs hmem
    constructor
    · exact pyRound_nonneg (div_nonneg hS.1 hT0)
    · apply pyRound_le_hundred
      rw [div_le_iff₀ hT]
      linarith [hS.2]

theorem seoWeights_nonneg : ∀ c, 0 ≤ seoWeights c := by
  intro c
  unfold seoWeights
  split_ifs <;> norm_num

/-- C1: on every findings mapping whose findings all carry a recognised
severity, SEOAnalyzer._calculate_score returns exactly the spec's value:
each non-empty category scores (success*100 + warning*50)/total, empty
categories score 50, total weight 0 yields 50, and otherwise the result
is round(weighted sum / total weight) with weight 0 for categories not
in the table; the result is always an integer in [0, 100]. -/
theorem claim_C1_category_scorer (findings : List (String × List Item))
    (h : ∀ p ∈ findings, ∀ i ∈ p.2, validType i) :
    SEOAnalyzer.calculate_score findings =
      Except.ok (specScoreWith seoWeights findings) ∧
    0 ≤ specScoreWith seoWeights findings ∧
    specScoreWith seoWeights findings ≤ 100 := by
  refine ⟨calculateScoreWith_eq_of_valid seoWeights h, ?_, ?_⟩
  · exact (specScoreWith_bounds seoWeights seoWeights_nonneg findings).1
  · exact (specScoreWith_bounds seoWeights seoWeights_nonneg findings).2

theorem claim_C1_witness :
    (SEOAnalyzer.calculate_score
        [("Meta Tags", [⟨some "success", none, none⟩]), ("Links", [])] =
      Except.ok (specScoreWith seoWeights
        [("Meta Tags", [⟨some "success", none, none⟩]), ("Links", [])]) ∧
     0 ≤ specScoreWith seoWeights
        [("Meta Tags", [⟨some "success", none, none⟩]), ("Links", [])] ∧
     specScoreWith seoWeights
        [("Meta Tags", [⟨some "success", none, none⟩]), ("Links", [])] ≤ 100) ∧
    specScoreWith seoWeights
        [("Meta Tags", [⟨some "success", none, none⟩]), ("Links", [])] = 79 := by
  constructor
  · exact claim_C1_category_scorer
      [("Meta Tags", [⟨some "success", none, none⟩]), ("Links", [])] (by decide)
  · simp [specScoreWith, specCatScore, countType, seoWeights]
    norm_num [pyRound, Rat.floor_def]

theorem typeCounts_filter_isSome (items : List Item) :
    typeCounts items = typeCounts (items.filter (fun i => i.type.isSome)) := by
  induction items with
  | nil => rfl
  | cons i is ih =>
    rcases ht : i.type with _ | t
    · simp only [typeCounts, List.filter_cons, ht, Option.isSome_none,
        Bool.false_eq_true, if_false, ih]
      cases typeCounts (List.filter (fun i => i.type.isSome) is) with
      | error e => rfl
      | ok v => obtain ⟨s, w, e⟩ := v; rfl
    · simp only [typeCounts, List.filter_cons, ht, Option.isSome_some, if_true, ih]

/-- Stripping the findings mapping of the items that have no "type" key. -/
def stripMissing (findings : List (String × List Item)) :
    List (String × List Item) :=
  findings.map (fun p => (p.1, p.2.filter (fun i => i.type.isSome)))

theorem categoryScore_skips_missing {items : List Item}
    (h : ∀ i ∈ items, i.type = none ∨ validType i) :
    categoryScore items =
      Except.ok (specCatScore (items.filter (fun i => i.type.isSome))) := by
  have hv : ∀ i ∈ items.filter (fun i => i.type.isSome), validType i := by
    intro i hi
    have h1 := List.of_mem_filter hi
    have h2 := h i (List.mem_of_mem_filter hi)
    rcases h2 with h2 | h2
    · rw [h2] at h1; simp at h1
    · exact h2
  by_cases hE : items.isEmpty
  · have hnil : items = [] := List.isEmpty_iff.mp hE
    simp [hnil, categoryScore, specCatScore]
  · unfold categoryScore
    rw [if_neg (by simp [hE]), typeCounts_filter_isSome,
      typeCounts_eq_of_valid hv]
    by_cases hFe : items.filter (fun i => i.type.isSome) = []
    · simp [hFe, countType, specCatScore]
    · have htot := countType_total_of_valid hv
      have hcne : countType (items.filter (fun i => i.type.isSome)) "success" +
          countType (items.filter (fun i => i.type.isSome)) "warning" +
          countType (items.filter (fun i => i.type.isSome)) "error" ≠ 0 := by
        rw [htot]
        exact fun hc => hFe (List.length_eq_zero.mp hc)
      have hq : ((countType (items.filter (fun i => i.type.isSome)) "success" : ℚ) +
          (countType (items.filter (fun i => i.type.isSome)) "warning" : ℚ) +
          (countType (items.filter (fun i => i.type.isSome)) "error" : ℚ)) =
          ((items.filter (fun i => i.type.isSome)).length : ℚ) := by
        exact_mod_cast htot
      simp only [if_neg hcne]
      unfold specCatScore
      rw [if_neg hFe, hq]

theorem scoreCategories_skips_missing {findings : List (String × List Item)}
    (h : ∀ p ∈ findings, ∀ i ∈ p.2, i.type = none ∨ validType i) :
    scoreCategories findings = Except.ok ((stripMissing findings).map
      (fun p => (p.1, specCatScore p.2))) := by
  induction findings with
  | nil => simp [scoreCategories, stripMissing]
  | cons p rest ih =>
    obtain ⟨c, items⟩ := p
    have hhead : ∀ i ∈ items, i.type = none ∨ validType i := h (c, items) (by simp)
    have hrest : ∀ q ∈ rest, ∀ i ∈ q.2, i.type = none ∨ validType i :=
      fun q hm => h q (by simp [hm])
    simp [scoreCategories, categoryScore_skips_missing hhead, ih hrest,
      stripMissing]

theorem calculateScoreWith_skips_missing (W : String → ℚ)
    {findings : List (String × List Item)}
    (h : ∀ p ∈ findings, ∀ i ∈ p.2, i.type = none ∨ validType i) :
    calculateScoreWith W findings =
      Except.ok (specScoreWith W (stripMissing findings)) := by
  unfold calculateScoreWith specScoreWith
  rw [scoreCategories_skips_missing h]
  dsimp only
  split_ifs with h1 <;> rfl

theorem typeCounts_error_of_unknown {items : List Item}
    (h : ∃ i ∈ items, i.type.isSome ∧ ¬ validType i) :
    typeCounts items = Except.error () := by
  induction items with
  | nil => simp at h
  | cons i is ih =>
    obtain ⟨j, hj, hjs, hjv⟩ := h
    rcases List.mem_cons.mp hj with rfl | hmem
    · rcases ht : j.type with _ | t
      · rw [ht] at hjs; simp at hjs
      · have h1 : ¬ t = "success" := fun hc => hjv (Or.inl (by rw [ht, hc]))
        have h2 : ¬ t = "warning" :=
          fun hc => hjv (Or.inr (Or.inl (by rw [ht, hc])))
        have h3 : ¬ t = "error" :=
          fun hc => hjv (Or.inr (Or.inr (by rw [ht, hc])))
        unfold typeCounts
        cases typeCounts is with
        | error e => rfl
        | ok v =>
          obtain ⟨s, w, ec⟩ := v
          simp [ht, h1, h2, h3]
    · unfold typeCounts
      rw [ih ⟨j, hmem, hjs, hjv⟩]

theorem scoreCategories_error_of_unknown {findings : List (String × List Item)}
    (h : ∃ p ∈ findings, ∃ i ∈ p.2, i.type.isSome ∧ ¬ validType i) :
    scoreCategories findings = Except.error () := by
  induction findings with
  | nil => simp at h
  | cons p rest ih =>
    obtain ⟨q, hq, hbad⟩ := h
    rcases List.mem_cons.mp hq with rfl | hmem
    · obtain ⟨c, items⟩ := q
      obtain ⟨i, hi, his, hiv⟩ := hbad
      have hne : items ≠ [] := by rintro rfl; simp at hi
      have hcs : categoryScore items = Except.error () := by
        unfold categoryScore
        rw [if_neg (by simp [hne]), typeCounts_error_of_unknown ⟨i, hi, his, hiv⟩]
      unfold scoreCategories
      rw [hcs]
    · obtain ⟨c, items⟩ := p
      unfold scoreCategories
      cases hc : categoryScore items with
      | error e => rfl
      | ok v =>
        rw [ih ⟨q, hmem, hbad⟩]

theorem calculateScoreWith_error_of_unknown (W : String → ℚ)
    {findings : List (String × List Item)}
    (h : ∃ p ∈ findings, ∃ i ∈ p.2, i.type.isSome ∧ ¬ validType i) :
    calculateScoreWith W findings = Except.error () := by
  unfold calculateScoreWith
  rw [scoreCategories_error_of_unknown h]

/-- C7 counterexample: the claim says a finding with a missing or
unrecognised severity is counted as a warning. In the code a finding
without a "type" key is skipped entirely: one success finding plus one
type-less finding score 100, not the 75 that success+warning would give;
and an unrecognised severity value raises (KeyError), modelled as an
error result. -/
theorem claim_C7_counterexample :
    SEOAnalyzer.calculate_score
      [("Meta Tags", [⟨some "success", none, none⟩, ⟨none, none, none⟩])] =
      Except.ok 100 ∧
    SEOAnalyzer.calculate_score
      [("Meta Tags", [⟨some "success", none, none⟩, ⟨none, none, none⟩])] ≠
      Except.ok 75 ∧
    SEOAnalyzer.calculate_score [("Meta Tags", [⟨some "bogus", none, none⟩])] =
      Except.error () := by
  refine ⟨?_, ?_, ?_⟩
  · simp [SEOAnalyzer.calculate_score, calculateScoreWith, scoreCategories,
      categoryScore, typeCounts, seoWeights]
    norm_num [pyRound, Rat.floor_def]
  · simp [SEOAnalyzer.calculate_score, calculateScoreWith, scoreCategories,
      categoryScore, typeCounts, seoWeights]
    norm_num [pyRound, Rat.floor_def]
  · simp [SEOAnalyzer.calculate_score, calculateScoreWith, scoreCategories,
      categoryScore, typeCounts, seoWeights]

/-- C7 amended: in SEOAnalyzer._calculate_score and
SecurityAnalyzer._calculate_score a finding with no severity ("type")
value is skipped by the scorer - excluded from both the numerator and
the denominator, exactly as if it were deleted from its category - and a
finding with an unrecognised severity value makes the scorer raise;
neither is normalized to warning. -/
theorem claim_C7_amended (findings : List (String × List Item)) :
    ((∀ p ∈ findings, ∀ i ∈ p.2, i.type = none ∨ validType i) →
      SEOAnalyzer.calculate_score findings =
        Except.ok (specScoreWith seoWeights (stripMissing findings)) ∧
      SecurityAnalyzer.calculate_score findings =
        Except.ok (specScoreWith securityWeights (stripMissing findings))) ∧
    ((∃ p ∈ findings, ∃ i ∈ p.2, i.type.isSome ∧ ¬ validType i) →
      SEOAnalyzer.calculate_score findings = Except.error () ∧
      SecurityAnalyzer.calculate_score findings = Except.error ()) := by
  constructor
  · intro h
    exact ⟨calculateScoreWith_skips_missing seoWeights h,
      calculateScoreWith_skips_missing securityWeights h⟩
  · intro h
    exact ⟨calculateScoreWith_error_of_unknown seoWeights h,
      calculateScoreWith_error_of_unknown securityWeights h⟩

theorem claim_C7_witness :
    (SEOAnalyzer.calculate_score
        [("Meta Tags", [⟨some "success", none, none⟩, ⟨none, none, none⟩])] =
      Except.ok (specScoreWith seoWeights (stripMissing
        [("Meta Tags", [⟨some "success", none, none⟩, ⟨none, none, none⟩])])) ∧
     SecurityAnalyzer.calculate_score
        [("Meta Tags", [⟨some "success", none, none⟩, ⟨none, none, none⟩])] =
      Except.ok (specScoreWith securityWeights (stripMissing
        [("Meta Tags", [⟨some "success", none, none⟩, ⟨none, none, none⟩])]))) ∧
    (SEOAnalyzer.calculate_score [("Meta Tags", [⟨some "bogus", none, none⟩])] =
      Except.error () ∧
     SecurityAnalyzer.calculate_score
        [("Meta Tags", [⟨some "bogus", none, none⟩])] = Except.error ()) := by
  constructor
  · exact (claim_C7_amended
      [("Meta Tags", [⟨some "success", none, none⟩, ⟨none, none, none⟩])]).1
      (by decide)
  · refine (claim_C7_amended [("Meta Tags", [⟨some "bogus", none, none⟩])]).2 ?_
    refine ⟨("Meta Tags", [⟨some "bogus", none, none⟩]), by simp,
      ⟨some "bogus", none, none⟩, by simp, by simp, ?_⟩
    intro hv
    rcases hv with hv | hv | hv <;> simp at hv

/-- The weight dict of app.calculate_overall_score before AI adjustment
(unknown categories read through dict.get(category, 0)). -/
def baseWeights : String → ℚ := fun c =>
  if c = "SEO" then 1/5
  else if c = "Performance" then 1/5
  else if c = "Content" then 1/5
  else if c = "Accessibility" then 3/20
  else if c = "Security" then 3/20
  else if c = "Design & UX" then 1/10
  else if c = "AI Insights" then 0
  else 0

/-- The weight table after the AI-redistribution step of
calculate_overall_score: when "AI Insights" is among the results it gets
0.1 and every other entry is scaled by 0.9. -/
def adjustedWeights (aiPresent : Bool) : String → ℚ := fun c =>
  if aiPresent then
    (if c = "AI Insights" then 1/10 else baseWeights c * (9/10))
  else baseWeights c

/-- app.calculate_overall_score: results maps analyzer name to its
score; empty results or zero total weight give 0, otherwise the rounded
weighted average over the analyzers present. -/
def app.calculate_overall_score (results : List (String × ℤ)) : ℤ :=
  if results = [] then 0
  else
    let W := adjustedWeights (results.any (fun p => p.1 = "AI Insights"))
    let totalWeight := (results.map (fun p => W p.1)).sum
    if totalWeight = 0 then 0
    else pyRound ((results.map (fun p => (p.2 : ℚ) * W p.1)).sum / totalWeight)

/-- The seven analyzer names app.run_analysis can put into results. -/
def analyzerNames : List String :=
  ["SEO", "Performance", "Content", "Accessibility", "Security",
   "Design & UX", "AI Insights"]

/-- The weighted average the spec describes: per-analyzer scores times
the (AI-adjusted) weights of exactly the analyzers present, divided by
the total of those weights. -/
def overallWeightedAverage (results : List (String × ℤ)) : ℚ :=
  let W := adjustedWeights (results.any (fun p => p.1 = "AI Insights"))
  (results.map (fun p => (p.2 : ℚ) * W p.1)).sum /
    (results.map (fun p => W p.1)).sum

theorem baseWeights_nonneg : ∀ c, 0 ≤ baseWeights c := by
  intro c
  unfold baseWeights
  split_ifs <;> norm_num

theorem adjustedWeights_pos_of_present {results : List (String × ℤ)}
    {p : String × ℤ} (hp : p ∈ results) (hn : p.1 ∈ analyzerNames) :
    0 < adjustedWeights (results.any (fun q => q.1 = "AI Insights")) p.1 := by
  by_cases hAI : p.1 = "AI Insights"
  · have hany : results.any (fun q => q.1 = "AI Insights") = true :=
      List.any_eq_true.mpr ⟨p, hp, by simp [hAI]⟩
    rw [hany]
    simp [adjustedWeights, hAI]
  · have hbase : 0 < baseWeights p.1 := by
      have hn7 : p.1 = "SEO" ∨ p.1 = "Performance" ∨ p.1 = "Content" ∨
          p.1 = "Accessibility" ∨ p.1 = "Security" ∨ p.1 = "Design & UX" ∨
          p.1 = "AI Insights" := by simpa [analyzerNames] using hn
      rcases hn7 with h | h | h | h | h | h | h <;>
        first
        | (exact absurd h hAI)
        | (rw [h]; simp only [baseWeights, String.reduceEq, reduceIte]; norm_num)
    by_cases hb : (results.any (fun q => q.1 = "AI Insights")) = true
    · simp only [adjustedWeights, hb, if_true, if_neg hAI]
      have h910 : (0 : ℚ) < 9/10 := by norm_num
      exact mul_pos hbase h910
    · simp only [Bool.not_eq_true] at hb
      simp only [adjustedWeights, hb, Bool.false_eq_true, if_false]
      exact hbase

/-- C2: for every non-empty set of analyzer results drawn from the seven
analyzers run_analysis can run, calculate_overall_score equals the
rounded weighted average of the present analyzers' scores under the base
weight table (SEO 0.2, Performance 0.2, Content 0.2, Accessibility 0.15,
Security 0.15, Design & UX 0.1), renormalized over the analyzers
present; when "AI Insights" is included it weighs 0.1 and every other
weight is scaled by 0.9. -/
theorem claim_C2_overall_score (results : List (String × ℤ))
    (hne : results ≠ [])
    (hnames : ∀ p ∈ results, p.1 ∈ analyzerNames) :
    app.calculate_overall_score results =
      pyRound (overallWeightedAverage results) := by
  unfold app.calculate_overall_score overallWeightedAverage
  rw [if_neg hne]
  have hpos : 0 < (results.map
      (fun p => adjustedWeights (results.any (fun q => q.1 = "AI Insights")) p.1)).sum := by
    apply List.sum_pos
    · intro x hx
      obtain ⟨p, hp, rfl⟩ := List.mem_map.mp hx
      exact adjustedWeights_pos_of_present hp (hnames p hp)
    · simp [hne]
  dsimp only
  rw [if_neg (ne_of_gt hpos)]

theorem claim_C2_witness :
    (app.calculate_overall_score
        [("SEO", 80), ("Security", 60), ("Design & UX", 100)] =
      pyRound (overallWeightedAverage
        [("SEO", 80), ("Security", 60), ("Design & UX", 100)]) ∧
     app.calculate_overall_score [("SEO", 80), ("AI Insights", 50)] =
      pyRound (overallWeightedAverage [("SEO", 80), ("AI Insights", 50)])) ∧
    app.calculate_overall_score
        [("SEO", 80), ("Security", 60), ("Design & UX", 100)] = 78 ∧
    app.calculate_overall_score [("SEO", 80), ("AI Insights", 50)] = 69 := by
  refine ⟨⟨claim_C2_overall_score _ (by decide) (by decide),
    claim_C2_overall_score _ (by decide) (by decide)⟩, ?_, ?_⟩ <;>
  · simp [app.calculate_overall_score, adjustedWeights, baseWeights]
    norm_num [pyRound, Rat.floor_def]

/-- The analyzer loop of app.run_analysis: the whole loop sits inside a
single try/except, so results[name] = analyzer.analyze() is run for each
selected analyzer in order and the first exception escapes to the
batch-level handler, discarding the partial results. Each analyzer is
modelled by the outcome of its analyze() call: Except.ok result or
Except.error message. -/
def app.run_analyzers {ρ : Type} :
    List (String × Except String ρ) → Except String (List (String × ρ))
  | [] => Except.ok []
  | (_, Except.error e) :: _ => Except.error e
  | (n, Except.ok v) :: rest =>
    match app.run_analyzers rest with
    | Except.error e => Except.error e
    | Except.ok vs => Except.ok ((n, v) :: vs)

/-- C3 counterexample: the claim says an exception in one analyzer is
caught per-analyzer, replaced by a degenerate score-0 result, and the
sibling analyzers still run. In the code the loop sits inside a single
try/except: when the first analyzer raises, the batch result is the
error, not a results mapping containing a substituted entry next to the
second analyzer's result. -/
theorem claim_C3_counterexample :
    app.run_analyzers [("SEO", Except.error "boom"),
        ("Content", Except.ok (77 : ℤ))] = Except.error "boom" ∧
    app.run_analyzers [("SEO", Except.error "boom"),
        ("Content", Except.ok (77 : ℤ))] ≠
      Except.ok [("SEO", 0), ("Content", 77)] := by
  constructor
  · rfl
  · intro h
    exact absurd h (by simp [app.run_analyzers])

/-- C3 amended: an exception inside one analyzer's analyze() aborts the
batch: with any analyzers before it succeeding, the loop's result is
that exception, caught only by the batch-level handler; no degenerate
result is substituted and the analyzers after it do not run. -/
theorem claim_C3_amended {ρ : Type} (pre post : List (String × Except String ρ))
    (n e : String) (h : ∀ p ∈ pre, ∃ v, p.2 = Except.ok v) :
    app.run_analyzers (pre ++ (n, Except.error e) :: post) =
      Except.error e := by
  induction pre with
  | nil => rfl
  | cons p rest ih =>
    obtain ⟨v, hv⟩ := h p (by simp)
    obtain ⟨m, r⟩ := p
    dsimp only at hv
    subst hv
    have ihr := ih (fun q hq => h q (by simp [hq]))
    simp [app.run_analyzers, ihr]

theorem claim_C3_witness :
    app.run_analyzers [("SEO", Except.ok (80 : ℤ)),
      ("Performance", Except.error "boom"), ("Content", Except.ok 70)] =
      Except.error "boom" :=
  claim_C3_amended [("SEO", Except.ok (80 : ℤ))] [("Content", Except.ok 70)]
    "Performance" "boom"
    (fun p hp => by
      rcases List.mem_singleton.mp hp with rfl
      exact ⟨80, rfl⟩)

/-- A recommendation dict as _generate_recommendations builds it. -/
structure Rec where
  priority : String
  category : String
  title : String
  description : String
deriving DecidableEq

/-- One pass of SEOAnalyzer._generate_recommendations (the error pass and
the warning pass are the same loop with different severity, priority and
default title): for each category in mapping order, for each item of the
given severity, emit one recommendation; its description comes from
_generate_recommendation_text, abstracted here as the parameter tg. -/
def recommendationPass (sev prio dflt : String) (tg : String → Item → String) :
    List (String × List Item) → List Rec
  | [] => []
  | (c, items) :: rest =>
    (items.filter (fun i => i.type = some sev)).map
      (fun i => ⟨prio, c, i.title.getD dflt, tg c i⟩) ++
    recommendationPass sev prio dflt tg rest

/-- Python's sorted(recommendations, key=priority rank) with the rank
dict High 0, Medium 1, Low 2: a stable sort over this finite key space
is the concatenation of the rank classes in rank order (the generated
recommendations only ever carry priority High or Medium, so the rank
lookup never fails). -/
def sortByPriority (recs : List Rec) : List Rec :=
  recs.filter (fun r => r.priority = "High") ++
  recs.filter (fun r => r.priority = "Medium") ++
  recs.filter (fun r => r.priority = "Low")

/-- SEOAnalyzer._generate_recommendations (the same code appears in
SecurityAnalyzer): error findings become High-priority recommendations,
then warning findings become Medium-priority ones, the list is stably
sorted by priority rank and truncated to the top 5. -/
def SEOAnalyzer.generate_recommendations (tg : String → Item → String)
    (findings : List (String × List Item)) : List Rec :=
  (sortByPriority
    (recommendationPass "error" "High" "Fix issue" tg findings ++
     recommendationPass "warning" "Medium" "Improve aspect" tg findings)).take 5

theorem recommendationPass_priority (sev prio dflt : String)
    (tg : String → Item → String) (findings : List (String × List Item)) :
    ∀ r ∈ recommendationPass sev prio dflt tg findings, r.priority = prio := by
  induction findings with
  | nil => simp [recommendationPass]
  | cons p rest ih =>
    obtain ⟨c, items⟩ := p
    intro r hr
    rcases List.mem_append.mp hr with hr | hr
    · obtain ⟨i, _, rfl⟩ := List.mem_map.mp hr
      rfl
    · exact ih r hr

theorem sortByPriority_high_medium (hs ms : List Rec)
    (hh : ∀ r ∈ hs, r.priority = "High")
    (hm : ∀ r ∈ ms, r.priority = "Medium") :
    sortByPriority (hs ++ ms) = hs ++ ms := by
  unfold sortByPriority
  have f1 : (hs ++ ms).filter (fun r => r.priority = "High") = hs := by
    rw [List.filter_append]
    have e1 : hs.filter (fun r => r.priority = "High") = hs :=
      List.filter_eq_self.mpr (fun a ha => by simp [hh a ha])
    have e2 : ms.filter (fun r => r.priority = "High") = [] :=
      List.filter_eq_nil_iff.mpr (fun a ha => by simp [hm a ha])
    rw [e1, e2, List.append_nil]
  have f2 : (hs ++ ms).filter (fun r => r.priority = "Medium") = ms := by
    rw [List.filter_append]
    have e1 : hs.filter (fun r => r.priority = "Medium") = [] :=
      List.filter_eq_nil_iff.mpr (fun a ha => by simp [hh a ha])
    have e2 : ms.filter (fun r => r.priority = "Medium") = ms :=
      List.filter_eq_self.mpr (fun a ha => by simp [hm a ha])
    rw [e1, e2, List.nil_append]
  have f3 : (hs ++ ms).filter (fun r => r.priority = "Low") = [] := by
    rw [List.filter_append]
    have e1 : hs.filter (fun r => r.priority = "Low") = [] :=
      List.filter_eq_nil_iff.mpr (fun a ha => by simp [hh a ha])
    have e2 : ms.filter (fun r => r.priority = "Low") = [] :=
      List.filter_eq_nil_iff.mpr (fun a ha => by simp [hm a ha])
    rw [e1, e2, List.append_nil]
  rw [f1, f2, f3, List.append_nil]

/-- C4: for every findings mapping, the synthesized recommendation list
is the error pass (priority High, category/finding discovery order)
followed by the warning pass (priority Medium, discovery order),
truncated to 5 - so every error-derived recommendation precedes every
warning-derived one and each tier keeps discovery order; in particular
findings [error "A", warning "B", error "C"] yield
[A High, C High, B Medium]. -/
theorem claim_C4_recommendation_order :
    (∀ (tg : String → Item → String) (findings : List (String × List Item)),
      SEOAnalyzer.generate_recommendations tg findings =
        (recommendationPass "error" "High" "Fix issue" tg findings ++
         recommendationPass "warning" "Medium" "Improve aspect" tg findings).take
          5) ∧
    (SEOAnalyzer.generate_recommendations (fun _ i => i.description.getD "")
        [("Content", [⟨some "error", some "A", none⟩,
          ⟨some "warning", some "B", none⟩,
          ⟨some "error", some "C", none⟩])]).map
      (fun r => (r.title, r.priority)) =
      [("A", "High"), ("C", "High"), ("B", "Medium")] := by
  constructor
  · intro tg findings
    unfold SEOAnalyzer.generate_recommendations
    rw [sortByPriority_high_medium _ _
      (recommendationPass_priority "error" "High" "Fix issue" tg findings)
      (recommendationPass_priority "warning" "Medium" "Improve aspect" tg
        findings)]
  · simp [SEOAnalyzer.generate_recommendations, sortByPriority,
      recommendationPass, List.filter]

/-- C5 counterexample: in SEOAnalyzer._generate_recommendations two
error findings with the identical title "Missing title tag" produce two
recommendations with that title, not one: there is no deduplication in
this synthesis pass. -/
theorem claim_C5_counterexample :
    ((SEOAnalyzer.generate_recommendations (fun _ i => i.description.getD "")
        [("Meta Tags", [⟨some "error", some "Missing title tag", none⟩,
          ⟨some "error", some "Missing title tag", none⟩])]).filter
      (fun r => r.title = "Missing title tag")).length = 2 := by
  simp [SEOAnalyzer.generate_recommendations, sortByPriority,
    recommendationPass, List.filter]

/-- The deduplication loop of AIAnalyzer's recommendation synthesis
(ai_analysis.py): walk the recommendations carrying the set of titles
already added; a recommendation whose title was already seen is dropped. -/
def AIAnalyzer.dedup_recommendations : List Rec → List String → List Rec
  | [], _ => []
  | r :: rest, seen =>
    if r.title ∈ seen then AIAnalyzer.dedup_recommendations rest seen
    else r :: AIAnalyzer.dedup_recommendations rest (r.title :: seen)

theorem dedup_cons_of_mem (r : Rec) (rest : List Rec) (seen : List String)
    (h : r.title ∈ seen) :
    AIAnalyzer.dedup_recommendations (r :: rest) seen =
      AIAnalyzer.dedup_recommendations rest seen := by
  simp [AIAnalyzer.dedup_recommendations, h]

theorem dedup_cons_of_not_mem (r : Rec) (rest : List Rec) (seen : List String)
    (h : ¬ r.title ∈ seen) :
    AIAnalyzer.dedup_recommendations (r :: rest) seen =
      r :: AIAnalyzer.dedup_recommendations rest (r.title :: seen) := by
  simp [AIAnalyzer.dedup_recommendations, h]

theorem dedup_filter_eq (l : List Rec) (seen : List String) (t : String) :
    (AIAnalyzer.dedup_recommendations l seen).filter (fun r => r.title = t) =
      if t ∈ seen then [] else (l.filter (fun r => r.title = t)).take 1 := by
  induction l generalizing seen with
  | nil =>
    simp only [AIAnalyzer.dedup_recommendations, List.filter_nil]
    split_ifs <;> rfl
  | cons r rest ih =>
    by_cases hseen : r.title ∈ seen
    · rw [dedup_cons_of_mem r rest seen hseen, ih seen]
      by_cases ht : t ∈ seen
      · rw [if_pos ht, if_pos ht]
      · have hneq : ¬ r.title = t := fun hc => ht (hc ▸ hseen)
        rw [if_neg ht, if_neg ht]
        simp [List.filter_cons, hneq]
    · rw [dedup_cons_of_not_mem r rest seen hseen]
      by_cases hrt : r.title = t
      · subst hrt
        rw [if_neg hseen]
        have hd : (decide (r.title = r.title)) = true := by simp
        simp only [List.filter_cons, hd, if_true]
        rw [ih (r.title :: seen), if_pos (by simp)]
        simp
      · have hd : (decide (r.title = t)) = false := by simp [hrt]
        by_cases ht : t ∈ seen
        · have hmem : t ∈ (r.title :: seen) := by simp [ht]
          rw [if_pos ht]
          simp only [List.filter_cons, hd, Bool.false_eq_true, if_false]
          rw [ih (r.title :: seen), if_pos hmem]
        · have hmem : ¬ t ∈ (r.title :: seen) := by
            intro hc
            rcases List.mem_cons.mp hc with hc | hc
            · exact hrt hc.symm
            · exact ht hc
          rw [if_neg ht]
          simp only [List.filter_cons, hd, Bool.false_eq_true, if_false]
          rw [ih (r.title :: seen), if_neg hmem]

/-- C5 amended: the SEO recommendation synthesis keeps duplicate titles
(two findings with identical titles yield two recommendations), and the
deduplication the spec describes lives in the AI analyzer's synthesis:
its dedup pass keeps, for every title, exactly the first recommendation
carrying it. -/
theorem claim_C5_amended :
    (∀ (recs : List Rec) (t : String),
      (AIAnalyzer.dedup_recommendations recs []).filter
          (fun r => r.title = t) =
        (recs.filter (fun r => r.title = t)).take 1) ∧
    ((SEOAnalyzer.generate_recommendations (fun _ i => i.description.getD "")
        [("Meta Tags", [⟨some "error", some "Missing title tag", none⟩,
          ⟨some "error", some "Missing title tag", none⟩])]).filter
      (fun r => r.title = "Missing title tag")).length = 2 := by
  constructor
  · intro recs t
    rw [dedup_filter_eq recs [] t]
    simp
  · simp [SEOAnalyzer.generate_recommendations, sortByPriority,
      recommendationPass, List.filter]

/-- The vowels string "aeiouy" of count_syllables. -/
def isVowel (c : Char) : Bool :=
  c = 'a' || c = 'e' || c = 'i' || c = 'o' || c = 'u' || c = 'y'

/-- The loop of count_syllables over indices 1..len-1: one point for
every vowel whose predecessor is not a vowel. -/
def vowelTransitions : List Char → ℤ
  | a :: b :: rest =>
    (if isVowel b && !isVowel a then 1 else 0) + vowelTransitions (b :: rest)
  | _ => 0

/-- Number of vowel-group starts of a (lowercased) word: one for a
leading vowel, plus one for each vowel preceded by a non-vowel. -/
def vowelGroupCount (wl : List Char) : ℤ :=
  (match wl.head? with
   | some c => if isVowel c then 1 else 0
   | none => 0) + vowelTransitions wl

/-- ContentAnalyzer._check_readability's count_syllables: lowercase the
word; length at most 3 counts 1; otherwise count the leading vowel and
every vowel preceded by a non-vowel, subtract 1 for a trailing "e", and
turn a count of exactly 0 into 1. -/
def ContentAnalyzer.count_syllables (w : List Char) : ℤ :=
  let wl := w.map Char.toLower
  if wl.length ≤ 3 then 1
  else
    let c0 := vowelGroupCount wl - (if wl.getLast? = some 'e' then 1 else 0)
    if c0 = 0 then 1 else c0

/-- Syllable counting in the spec's words: 1 if the lowercased word has
length at most 3, otherwise the number of vowel-group starts, minus 1 if
the word ends in "e", floored at 1. -/
def specSyllables (w : List Char) : ℤ :=
  let wl := w.map Char.toLower
  if wl.length ≤ 3 then 1
  else max 1 (vowelGroupCount wl - (if wl.getLast? = some 'e' then 1 else 0))

theorem vowelTransitions_nonneg (l : List Char) : 0 ≤ vowelTransitions l := by
  induction l with
  | nil => simp [vowelTransitions]
  | cons a rest ih =>
    cases rest with
    | nil => simp [vowelTransitions]
    | cons b rest2 =>
      have he : vowelTransitions (a :: b :: rest2) =
          (if isVowel b && !isVowel a then 1 else 0) +
            vowelTransitions (b :: rest2) := rfl
      rw [he]
      split_ifs <;> linarith

theorem vowelGroupCount_nonneg (l : List Char) : 0 ≤ vowelGroupCount l := by
  unfold vowelGroupCount
  have ht := vowelTransitions_nonneg l
  cases l with
  | nil => simp [vowelTransitions]
  | cons a rest =>
    simp only [List.head?_cons]
    split_ifs <;> linarith

theorem vowelGroupCount_pos_of_last_vowel (l : List Char) (c : Char)
    (hl : l.getLast? = some c) (hv : isVowel c = true) :
    1 ≤ vowelGroupCount l := by
  induction l with
  | nil => simp at hl
  | cons a rest ih =>
    cases rest with
    | nil =>
      simp only [List.getLast?_singleton, Option.some.injEq] at hl
      subst hl
      simp [vowelGroupCount, vowelTransitions, hv]
    | cons b rest2 =>
      have hl2 : (b :: rest2).getLast? = some c := by
        rw [← hl]
        exact List.getLast?_cons_cons.symm
      have ih2 := ih hl2
      have htrans := vowelTransitions_nonneg (b :: rest2)
      have he : vowelGroupCount (a :: b :: rest2) =
          (if isVowel a then 1 else 0) +
          ((if isVowel b && !isVowel a then 1 else 0) +
            vowelTransitions (b :: rest2)) := rfl
      rw [he]
      by_cases ha : isVowel a = true
      · simp only [ha, if_true]
        split_ifs <;> linarith
      · have ha2 : isVowel a = false := by
          cases hx : isVowel a
          · rfl
          · exact absurd hx ha
        by_cases hb : isVowel b = true
        · simp [ha2, hb]
          linarith
        · have hb2 : isVowel b = false := by
            cases hx : isVowel b
            · rfl
            · exact absurd hx hb
          have hgb : vowelGroupCount (b :: rest2) =
              (if isVowel b then 1 else 0) + vowelTransitions (b :: rest2) := rfl
          rw [hgb, hb2] at ih2
          simp only [Bool.false_eq_true, if_false, zero_add] at ih2
          simp [ha2, hb2]
          linarith

theorem count_syllables_eq_spec (w : List Char) :
    ContentAnalyzer.count_syllables w = specSyllables w := by
  unfold ContentAnalyzer.count_syllables specSyllables
  dsimp only
  by_cases hlen : (w.map Char.toLower).length ≤ 3
  · rw [if_pos hlen, if_pos hlen]
  · rw [if_neg hlen, if_neg hlen]
    have hG := vowelGroupCount_nonneg (w.map Char.toLower)
    have hc0 : 0 ≤ vowelGroupCount (w.map Char.toLower) -
        (if (w.map Char.toLower).getLast? = some 'e' then 1 else 0) := by
      by_cases he : (w.map Char.toLower).getLast? = some 'e'
      · rw [if_pos he]
        have h1 := vowelGroupCount_pos_of_last_vowel (w.map Char.toLower) 'e'
          he (by decide)
        linarith
      · rw [if_neg he]
        linarith
    by_cases hz : vowelGroupCount (w.map Char.toLower) -
        (if (w.map Char.toLower).getLast? = some 'e' then 1 else 0) = 0
    · rw [if_pos hz, hz]
      simp
    · rw [if_neg hz]
      have h1 : 1 ≤ vowelGroupCount (w.map Char.toLower) -
          (if (w.map Char.toLower).getLast? = some 'e' then 1 else 0) := by
        omega
      exact (max_eq_right h1).symm

theorem count_syllables_ge_one (w : List Char) :
    1 ≤ ContentAnalyzer.count_syllables w := by
  rw [count_syllables_eq_spec]
  unfold specSyllables
  dsimp only
  split_ifs <;> omega

/-- A \w word character (ASCII model): letters, digits, underscore. -/
def isWordChar (c : Char) : Bool := c.isAlphanum || c = '_'

/-- re.findall(r'\w+', content): the non-empty maximal runs of word
characters. Splitting at every non-word character produces exactly
those runs plus empty fragments, which the filter drops. -/
def ContentAnalyzer.find_words (content : List Char) : List (List Char) :=
  (content.splitOnP (fun c => ! isWordChar c)).filter (fun w => ¬ w.isEmpty)

/-- A sentence-ending character of the re.split pattern [.!?]+. -/
def isSentenceEnd (c : Char) : Bool := c = '.' || c = '!' || c = '?'

/-- re.split(r'[.!?]+', content) followed by dropping fragments that are
empty after strip(): splitting at every single ender yields the same
fragments plus empties between consecutive enders, and the
strip-non-empty filter (a fragment survives iff it has a non-whitespace
character) drops exactly those. -/
def ContentAnalyzer.sentences (content : List Char) : List (List Char) :=
  (content.splitOnP isSentenceEnd).filter
    (fun s => s.any (fun c => ! c.isWhitespace))

/-- The Flesch Reading Ease formula of _check_readability. -/
def ContentAnalyzer.flesch_formula (wordsN sentsN : ℕ) (syll : ℤ) : ℚ :=
  206835/1000 - 1015/1000 * ((wordsN : ℚ) / (sentsN : ℚ)) -
    846/10 * ((syll : ℚ) / (wordsN : ℚ))

/-- The Flesch score _check_readability computes for a content string:
0 when there are no sentences or no words (the guarded division),
otherwise the formula over sentence, word and syllable counts. -/
def ContentAnalyzer.flesch_of (content : List Char) : ℚ :=
  let s := (ContentAnalyzer.sentences content).length
  let w := (ContentAnalyzer.find_words content).length
  let syl := ((ContentAnalyzer.find_words content).map
    ContentAnalyzer.count_syllables).sum
  if s = 0 ∨ w = 0 then 0
  else ContentAnalyzer.flesch_formula w s syl

/-- The bucket chain of _check_readability: (readability level, finding
type) from the Flesch score. -/
def readabilityBucket (f : ℚ) : String × String :=
  if f < 30 then ("Very difficult", "error")
  else if f < 50 then ("Difficult", "warning")
  else if f < 60 then ("Fairly difficult", "warning")
  else if f < 70 then ("Standard", "success")
  else if f < 80 then ("Fairly easy", "success")
  else if f < 90 then ("Easy", "success")
  else ("Very easy", "success")

/-- ContentAnalyzer._check_readability: empty content returns the fixed
error finding; otherwise the finding's type and title come from the
bucket of the Flesch score. (The finding's description interpolates
formatted decimals; that presentational string is left unmodelled.) -/
def ContentAnalyzer.check_readability (content : List Char) : Item :=
  if content.isEmpty then
    ⟨some "error", some "No readable content found", none⟩
  else
    ⟨some (readabilityBucket (ContentAnalyzer.flesch_of content)).2,
     some ("Readability: " ++
       (readabilityBucket (ContentAnalyzer.flesch_of content)).1), none⟩

/-- C6: the readability check computes
flesch = 206.835 - 1.015*(words/sentences) - 84.6*(syllables/words),
with count_syllables equal to the spec's counting rule (1 for lowercased
length at most 3, otherwise vowel-group starts minus 1 for a trailing
"e", floored at 1) and sentences the non-blank fragments of splitting on
[.!?]+; in particular words=100, sentences=5, syllables=150 give
flesch = 59.635, in the "Fairly difficult" bucket with warning severity,
and for non-empty content the finding's type and title are the bucket of
the computed score. -/
theorem claim_C6_readability :
    (∀ w : List Char, ContentAnalyzer.count_syllables w = specSyllables w) ∧
    ContentAnalyzer.flesch_formula 100 5 150 = 59635/1000 ∧
    readabilityBucket (ContentAnalyzer.flesch_formula 100 5 150) =
      ("Fairly difficult", "warning") ∧
    (∀ content : List Char, ¬ content.isEmpty →
      ContentAnalyzer.check_readability content =
        ⟨some (readabilityBucket (ContentAnalyzer.flesch_of content)).2,
         some ("Readability: " ++
           (readabilityBucket (ContentAnalyzer.flesch_of content)).1),
         none⟩) := by
  refine ⟨count_syllables_eq_spec, ?_, ?_, ?_⟩
  · norm_num [ContentAnalyzer.flesch_formula]
  · have hf : ContentAnalyzer.flesch_formula 100 5 150 = 59635/1000 := by
      norm_num [ContentAnalyzer.flesch_formula]
    rw [hf]
    norm_num [readabilityBucket]
  · intro content hne
    unfold ContentAnalyzer.check_readability
    rw [if_neg hne]

/-- C10: the readability check is total on non-empty content: zero
sentences or zero words give Flesch score 0 (the division is guarded)
and the "Very difficult" error finding; and every word's syllable count
is at least 1. -/
theorem claim_C10_readability_total :
    (∀ content : List Char, ¬ content.isEmpty →
      ((ContentAnalyzer.sentences content).length = 0 ∨
       (ContentAnalyzer.find_words content).length = 0) →
      ContentAnalyzer.flesch_of content = 0 ∧
      ContentAnalyzer.check_readability content =
        ⟨some "error", some "Readability: Very difficult", none⟩) ∧
    (∀ w : List Char, 1 ≤ ContentAnalyzer.count_syllables w) := by
  constructor
  · intro content hne hz
    have hf : ContentAnalyzer.flesch_of content = 0 := by
      unfold ContentAnalyzer.flesch_of
      dsimp only
      rw [if_pos hz]
    refine ⟨hf, ?_⟩
    unfold ContentAnalyzer.check_readability
    rw [if_neg hne, hf]
    have hb : readabilityBucket 0 = ("Very difficult", "error") := by
      norm_num [readabilityBucket]
    rw [hb]
    decide
  · exact count_syllables_ge_one

theorem claim_C10_witness :
    ContentAnalyzer.flesch_of ['!', '!', '!'] = 0 ∧
    ContentAnalyzer.check_readability ['!', '!', '!'] =
      ⟨some "error", some "Readability: Very difficult", none⟩ :=
  claim_C10_readability_total.1 ['!', '!', '!'] (by decide) (by decide)

theorem claim_C6_witness :
    ContentAnalyzer.check_readability ['G', 'o', '.'] =
      ⟨some (readabilityBucket (ContentAnalyzer.flesch_of ['G', 'o', '.'])).2,
       some ("Readability: " ++
         (readabilityBucket (ContentAnalyzer.flesch_of ['G', 'o', '.'])).1),
       none⟩ ∧
    ContentAnalyzer.check_readability ['G', 'o', '.'] =
      ⟨some "success", some "Readability: Very easy", none⟩ := by
  have h1 : ContentAnalyzer.sentences ['G', 'o', '.'] = [['G', 'o']] := by
    decide
  have h2 : ContentAnalyzer.find_words ['G', 'o', '.'] = [['G', 'o']] := by
    decide
  have h3 : ContentAnalyzer.count_syllables ['G', 'o'] = 1 := by decide
  have hf : ContentAnalyzer.flesch_of ['G', 'o', '.'] = 121220/1000 := by
    unfold ContentAnalyzer.flesch_of
    rw [h1, h2]
    simp [h3]
    norm_num [ContentAnalyzer.flesch_formula]
  constructor
  · exact claim_C6_readability.2.2.2 ['G', 'o', '.'] (by decide)
  · unfold ContentAnalyzer.check_readability
    rw [if_neg (by decide), hf]
    have hb : readabilityBucket (121220/1000) = ("Very easy", "success") := by
      norm_num [readabilityBucket]
    rw [hb]
    decide

/-- The resource list _estimate_page_weight samples with HEAD requests:
resource_urls[:10], the first 10 discovered resources. -/
def PerformanceAnalyzer.head_sample {α : Type} (resources : List α) : List α :=
  resources.take 10

/-- total_kb of _estimate_page_weight: the HTML byte size plus the
content-length of every sampled resource whose HEAD request succeeds
(headSize u = none models a failed request or a missing content-length
header, which the code skips), converted to KB. -/
def PerformanceAnalyzer.total_kb {α : Type} (htmlSize : ℕ) (resources : List α)
    (headSize : α → Option ℕ) : ℚ :=
  ((htmlSize : ℚ) + ((PerformanceAnalyzer.head_sample resources).map
    (fun u => ((headSize u).getD 0 : ℚ))).sum) / 1024

/-- estimated_kb of _estimate_page_weight: the sampled total, times 1.5
unless fewer than 10 URLs survived the truncation. -/
def PerformanceAnalyzer.estimated_kb {α : Type} (htmlSize : ℕ)
    (resources : List α) (headSize : α → Option ℕ) : ℚ :=
  if (PerformanceAnalyzer.head_sample resources).length < 10
  then PerformanceAnalyzer.total_kb htmlSize resources headSize
  else PerformanceAnalyzer.total_kb htmlSize resources headSize * (3/2)

/-- C8 counterexample: with exactly 10 resources on the page the claim
says the estimate is the unextrapolated sampled total; the code
truncates to 10 and then tests len < 10, so the 1.5 factor is applied:
10 zero-sized resources and 1024 bytes of HTML give an estimate of
1.5 KB against a sampled total of 1 KB. -/
theorem claim_C8_counterexample :
    (List.range 10).length = 10 ∧
    PerformanceAnalyzer.total_kb 1024 (List.range 10) (fun _ => some 0) = 1 ∧
    PerformanceAnalyzer.estimated_kb 1024 (List.range 10) (fun _ => some 0) =
      3/2 ∧
    PerformanceAnalyzer.estimated_kb 1024 (List.range 10) (fun _ => some 0) ≠
      PerformanceAnalyzer.total_kb 1024 (List.range 10) (fun _ => some 0) := by
  have h1 : PerformanceAnalyzer.total_kb 1024 (List.range 10)
      (fun _ => some 0) = 1 := by
    simp [PerformanceAnalyzer.total_kb, PerformanceAnalyzer.head_sample,
      List.range_succ]
  have h2 : PerformanceAnalyzer.estimated_kb 1024 (List.range 10)
      (fun _ => some 0) = 3/2 := by
    unfold PerformanceAnalyzer.estimated_kb
    rw [if_neg (by simp [PerformanceAnalyzer.head_sample]), h1]
    norm_num
  refine ⟨by decide, h1, h2, ?_⟩
  rw [h1, h2]
  norm_num

/-- C8 amended: at most 10 resources are sampled via HEAD requests, and
the 1.5 extrapolation of the sampled total is applied exactly when at
least 10 resources were present on the page; with 9 or fewer the
estimate is the unextrapolated sampled total. -/
theorem claim_C8_amended {α : Type} (htmlSize : ℕ) (resources : List α)
    (headSize : α → Option ℕ) :
    (PerformanceAnalyzer.head_sample resources).length ≤ 10 ∧
    PerformanceAnalyzer.estimated_kb htmlSize resources headSize =
      (if 10 ≤ resources.length
       then PerformanceAnalyzer.total_kb htmlSize resources headSize * (3/2)
       else PerformanceAnalyzer.total_kb htmlSize resources headSize) := by
  constructor
  · unfold PerformanceAnalyzer.head_sample
    rw [List.length_take]
    omega
  · unfold PerformanceAnalyzer.estimated_kb
    by_cases h : 10 ≤ resources.length
    · rw [if_pos h, if_neg (by
        unfold PerformanceAnalyzer.head_sample
        rw [List.length_take]
        omega)]
    · rw [if_neg h, if_pos (by
        unfold PerformanceAnalyzer.head_sample
        rw [List.length_take]
        omega)]

/-- AccessibilityAnalyzer._check_language: the argument models
soup.find("html") (none when no html tag) together with the tag's lang
attribute (none when absent). Python's `if not lang_attr` treats both a
missing attribute and an empty string as missing. (The findings'
description strings are presentational and left unmodelled.) -/
def AccessibilityAnalyzer.check_language (htmlTag : Option (Option String)) :
    Item :=
  match htmlTag with
  | none => ⟨some "error", some "No HTML tag found", none⟩
  | some none => ⟨some "error", some "Missing language attribute", none⟩
  | some (some l) =>
    if l = "" then ⟨some "error", some "Missing language attribute", none⟩
    else if l.length < 2 then
      ⟨some "warning", some "Invalid language code", none⟩
    else ⟨some "success", some ("Language specified: " ++ l), none⟩

/-- The findings dict AccessibilityAnalyzer.analyze() assembles: the
category keys in insertion order with each check's finding appended in
program order (Structure gets language, page title, headings hierarchy,
landmarks; Media the image alt check; Content the colour contrast, text
size, form labels and tables checks; Navigation the link text and
keyboard checks). -/
def AccessibilityAnalyzer.assemble_findings
    (lang titleF headings landmarks imagesAlt contrast textSize formLabels
     links keyboard tables : Item) : List (String × List Item) :=
  [("Structure", [lang, titleF, headings, landmarks]),
   ("Content", [contrast, textSize, formLabels, tables]),
   ("Navigation", [links, keyboard]),
   ("Media", [imagesAlt])]

/-- Modelled from the spec: the category weight table of
AccessibilityAnalyzer._calculate_score. The source file in src/ is
truncated inside this method (it ends mid-table after
Structure 0.25, Content 0.25, "Navigation": 0...), so only the first two
weights are visible; per the section 4.1 category-weighting pattern
(weights over the analyzer's categories summing to 1) Navigation and
Media are modelled as 0.25 each. -/
def accessibilityWeights : String → ℚ := fun c =>
  if c = "Structure" then 1/4
  else if c = "Content" then 1/4
  else if c = "Navigation" then 1/4
  else if c = "Media" then 1/4
  else 0

/-- Modelled from the spec: AccessibilityAnalyzer._calculate_score, the
section 4.1 category scorer (the code shared with the other analyzers)
under the accessibility weight table. -/
def AccessibilityAnalyzer.calculate_score :
    List (String × List Item) → Except Unit ℤ :=
  calculateScoreWith accessibilityWeights

theorem assemble_reduce (L titleF headings landmarks imagesAlt contrast
    textSize formLabels links keyboard tables : Item) :
    specScoreWith accessibilityWeights
      (AccessibilityAnalyzer.assemble_findings L titleF headings landmarks
        imagesAlt contrast textSize formLabels links keyboard tables) =
    pyRound (((1 : ℚ)/4 * specCatScore [L, titleF, headings, landmarks] +
      (1/4 * specCatScore [contrast, textSize, formLabels, tables] +
      (1/4 * specCatScore [links, keyboard] +
      (1/4 * specCatScore [imagesAlt] + 0)))) /
      (1/4 + (1/4 + (1/4 + (1/4 + 0))))) := by
  unfold specScoreWith AccessibilityAnalyzer.assemble_findings
  dsimp only
  simp only [List.map_cons, List.map_nil, List.sum_cons, List.sum_nil,
    accessibilityWeights, String.reduceEq, reduceIte]
  rw [if_neg (by norm_num)]

theorem specCatScore_success_vs_error (x y : Item) (rest : List Item)
    (hx : x.type = some "success") (hy : y.type = some "error") :
    specCatScore (x :: rest) =
      specCatScore (y :: rest) + 100 / ((rest.length : ℚ) + 1) := by
  unfold specCatScore
  rw [if_neg (by simp), if_neg (by simp)]
  rw [countType_cons, countType_cons, countType_cons, countType_cons]
  simp only [hx, hy, Option.some.injEq, String.reduceEq, if_true, if_false,
    reduceIte, List.length_cons]
  have hd : (0:ℚ) < (rest.length : ℚ) + 1 := by positivity
  push_cast
  field_simp
  ring

/-- C9: a document whose html tag has no lang attribute gets an
error-severity finding from the accessibility language check, and -
with every other check's finding held fixed (any valid severities) - the
accessibility score is strictly lower than for the otherwise-identical
document with lang="en", whose language check succeeds. -/
theorem claim_C9_language_score
    (titleF headings landmarks imagesAlt contrast textSize formLabels links
     keyboard tables : Item)
    (h : ∀ i ∈ [titleF, headings, landmarks, imagesAlt, contrast, textSize,
      formLabels, links, keyboard, tables], validType i) :
    (AccessibilityAnalyzer.check_language (some none)).type = some "error" ∧
    ∃ a b : ℤ,
      AccessibilityAnalyzer.calculate_score
        (AccessibilityAnalyzer.assemble_findings
          (AccessibilityAnalyzer.check_language (some none))
          titleF headings landmarks imagesAlt contrast textSize formLabels
          links keyboard tables) = Except.ok a ∧
      AccessibilityAnalyzer.calculate_score
        (AccessibilityAnalyzer.assemble_findings
          (AccessibilityAnalyzer.check_language (some (some "en")))
          titleF headings landmarks imagesAlt contrast textSize formLabels
          links keyboard tables) = Except.ok b ∧
      a < b := by
  have hEt : (AccessibilityAnalyzer.check_language (some none)).type =
      some "error" := rfl
  have hOt : (AccessibilityAnalyzer.check_language (some (some "en"))).type =
      some "success" := by decide
  refine ⟨hEt, ?_⟩
  have hv : ∀ L : Item, validType L →
      ∀ p ∈ AccessibilityAnalyzer.assemble_findings L titleF headings
        landmarks imagesAlt contrast textSize formLabels links keyboard
        tables, ∀ i ∈ p.2, validType i := by
    intro L hL p hp i hi
    simp only [AccessibilityAnalyzer.assemble_findings, List.mem_cons,
      List.not_mem_nil, or_false] at hp
    rcases hp with rfl | rfl | rfl | rfl <;> dsimp only at hi <;>
      simp only [List.mem_cons, List.not_mem_nil, or_false] at hi
    · rcases hi with h1 | h1 | h1 | h1
      · rw [h1]; exact hL
      · exact h i (by simp [h1])
      · exact h i (by simp [h1])
      · exact h i (by simp [h1])
    · rcases hi with h1 | h1 | h1 | h1 <;> exact h i (by simp [h1])
    · rcases hi with h1 | h1 <;> exact h i (by simp [h1])
    · exact h i (by simp [hi])
  have hv1 := hv (AccessibilityAnalyzer.check_language (some none))
    (Or.inr (Or.inr hEt))
  have hv2 := hv (AccessibilityAnalyzer.check_language (some (some "en")))
    (Or.inl hOt)
  refine ⟨specScoreWith accessibilityWeights
      (AccessibilityAnalyzer.assemble_findings
        (AccessibilityAnalyzer.check_language (some none))
        titleF headings landmarks imagesAlt contrast textSize formLabels
        links keyboard tables),
    specScoreWith accessibilityWeights
      (AccessibilityAnalyzer.assemble_findings
        (AccessibilityAnalyzer.check_language (some (some "en")))
        titleF headings landmarks imagesAlt contrast textSize formLabels
        links keyboard tables),
    calculateScoreWith_eq_of_valid accessibilityWeights hv1,
    calculateScoreWith_eq_of_valid accessibilityWeights hv2, ?_⟩
  rw [assemble_reduce, assemble_reduce]
  apply pyRound_lt_of_add_two_le
  have hS := specCatScore_success_vs_error
    (AccessibilityAnalyzer.check_language (some (some "en")))
    (AccessibilityAnalyzer.check_language (some none))
    [titleF, headings, landmarks] hOt hEt
  rw [hS]
  have hT : ((1 : ℚ)/4 + (1/4 + (1/4 + (1/4 + 0)))) = 1 := by norm_num
  rw [hT, div_one, div_one]
  have hlen : (([titleF, headings, landmarks] : List Item).length : ℚ) = 3 := by
    simp
  rw [hlen]
  linarith

theorem claim_C9_witness :
    ((AccessibilityAnalyzer.check_language (some none)).type = some "error" ∧
     ∃ a b : ℤ,
      AccessibilityAnalyzer.calculate_score
        (AccessibilityAnalyzer.assemble_findings
          (AccessibilityAnalyzer.check_language (some none))
          ⟨some "success", none, none⟩ ⟨some "success", none, none⟩
          ⟨some "success", none, none⟩ ⟨some "success", none, none⟩
          ⟨some "success", none, none⟩ ⟨some "success", none, none⟩
          ⟨some "success", none, none⟩ ⟨some "success", none, none⟩
          ⟨some "success", none, none⟩ ⟨some "success", none, none⟩) =
        Except.ok a ∧
      AccessibilityAnalyzer.calculate_score
        (AccessibilityAnalyzer.assemble_findings
          (AccessibilityAnalyzer.check_language (some (some "en")))
          ⟨some "success", none, none⟩ ⟨some "success", none, none⟩
          ⟨some "success", none, none⟩ ⟨some "success", none, none⟩
          ⟨some "success", none, none⟩ ⟨some "success", none, none⟩
          ⟨some "success", none, none⟩ ⟨some "success", none, none⟩
          ⟨some "success", none, none⟩ ⟨some "success", none, none⟩) =
        Except.ok b ∧
      a < b) ∧
    AccessibilityAnalyzer.calculate_score
      (AccessibilityAnalyzer.assemble_findings
        (AccessibilityAnalyzer.check_language (some none))
        ⟨some "success", none, none⟩ ⟨some "success", none, none⟩
        ⟨some "success", none, none⟩ ⟨some "success", none, none⟩
        ⟨some "success", none, none⟩ ⟨some "success", none, none⟩
        ⟨some "success", none, none⟩ ⟨some "success", none, none⟩
        ⟨some "success", none, none⟩ ⟨some "success", none, none⟩) =
      Except.ok 94 ∧
    AccessibilityAnalyzer.calculate_score
      (AccessibilityAnalyzer.assemble_findings
        (AccessibilityAnalyzer.check_language (some (some "en")))
        ⟨some "success", none, none⟩ ⟨some "success", none, none⟩
        ⟨some "success", none, none⟩ ⟨some "success", none, none⟩
        ⟨some "success", none, none⟩ ⟨some "success", none, none⟩
        ⟨some "success", none, none⟩ ⟨some "success", none, none⟩
        ⟨some "success", none, none⟩ ⟨some "success", none, none⟩) =
      Except.ok 100 := by
  have hOv : AccessibilityAnalyzer.check_language (some (some "en")) =
      ⟨some "success", some "Language specified: en", none⟩ := by decide
  have hEv : AccessibilityAnalyzer.check_language (some none) =
      ⟨some "error", some "Missing language attribute", none⟩ := rfl
  refine ⟨claim_C9_language_score _ _ _ _ _ _ _ _ _ _ (by decide), ?_, ?_⟩ <;>
  · simp [AccessibilityAnalyzer.calculate_score, calculateScoreWith,
      scoreCategories, categoryScore, typeCounts, accessibilityWeights,
      AccessibilityAnalyzer.assemble_findings, hOv, hEv]
    norm_num [pyRound, Rat.floor_def]
